import Mathlib

/-!
Verification of the sigma-rust proof-of-knowledge core: the discrete-log
Sigma protocol (`dlog_protocol.rs`), the `ProofBytes` encoding and the
`ProverResult` JSON contract (`prover_result.rs`, `json.rs`).

Conventions of the embedding:
* Byte vectors (`Vec<u8>`) are `List Nat`; where a property genuinely needs
  the bytes to fit in a `u8` the theorem carries an explicit `< 256` bound.
* The `as u16` cast in the source is an explicit `% 65536`.
* Fallible operations return `Except`.
* The elliptic-curve Group Primitive is an external capability of the
  repository (spec, "System Overview", item 1); it is modelled below as the
  cyclic group of prime order `groupOrder` in discrete-log representation.
-/

/-- Modelled from the spec: the order of the scalar field of the external
Group Primitive (the k256 / secp256k1 group order used by `dlog_group`,
which is repository code outside the sources shown). -/
def groupOrder : Nat :=
  0xFFFFFFFFFFFFFFFFFFFFFFFFFFFFFFFEBAAEDCE6AF48A03BBFD25E8CD0364141

/-- Scalars of the group (`k256::Scalar`): field elements modulo the group
order, with wrapping add and mul as the source relies on. -/
abbrev Scalar : Type := ZMod groupOrder

/-- Modelled from the spec: an elliptic-curve point of the external Group
Primitive.  The group is cyclic of prime order `groupOrder` generated by
`g`, hence isomorphic to the additive group of `ZMod groupOrder` via the
discrete logarithm; a point is represented by its discrete logarithm. -/
abbrev EcPoint : Type := ZMod groupOrder

/-- Modelled from the spec: the generator point `g` of the Group Primitive
(`dlog_group::generator`).  In discrete-log representation `g` is `1`. -/
def dlog_group.generator : EcPoint := 1

/-- Modelled from the spec: `dlog_group::exponentiate(base, e) = base^e`.
In discrete-log representation exponentiation is scalar multiplication. -/
def dlog_group.exponentiate (base : EcPoint) (e : Scalar) : EcPoint := e * base

/-- Modelled from the spec: `dlog_group::inverse(p)`, the group inverse. -/
def dlog_group.inverse (p : EcPoint) : EcPoint := -p

/-- Modelled from the spec: the point multiplication written `*` in the
source (the group operation of the Group Primitive). -/
def dlog_group.mul (p1 p2 : EcPoint) : EcPoint := p1 + p2

/-- Modelled from the spec: a `Challenge` is externally supplied and
"treated as opaque scalar, range-reduced modulo group order"; the source
only uses it through its conversion `Into<Scalar>`. -/
abbrev Challenge : Type := Scalar

/-- Modelled from the spec: the public image `h` of a secret, one group
element with `h = g^w` (`ProveDlog` of ergotree-ir, outside the sources
shown). -/
structure ProveDlog where
  h : EcPoint

/-- The prover's secret scalar `w` (`DlogProverInput`). -/
structure DlogProverInput where
  w : Scalar

/-- Modelled from the spec: `DlogProverInput::public_image`, `h = g^w`
(declared in `private_input.rs`, outside the sources shown). -/
def DlogProverInput.public_image (inp : DlogProverInput) : ProveDlog :=
  ⟨dlog_group.exponentiate dlog_group.generator inp.w⟩

/-- First message from the prover (message `a`), `dlog_protocol.rs`. -/
structure FirstDlogProverMessage where
  a : EcPoint

/-- Second message from the prover (message `z`), `dlog_protocol.rs`. -/
structure SecondDlogProverMessage where
  z : Scalar

/-- interactive_prover::first_message.  The source samples `r` with
`random_scalar_in_group_range()` (its only side effect); the sampled
scalar is an explicit argument here.  Computes `a = g^r`. -/
def interactive_prover.first_message (r : Scalar) :
    Scalar × FirstDlogProverMessage :=
  (r, ⟨dlog_group.exponentiate dlog_group.generator r⟩)

/-- interactive_prover::second_message: `e·w` then `z = rnd + e·w`, both
wrapping modulo the group order exactly as the scalar field does. -/
def interactive_prover.second_message (private_input : DlogProverInput)
    (rnd : Scalar) (challenge : Challenge) : SecondDlogProverMessage :=
  ⟨rnd + challenge * private_input.w⟩

/-- interactive_prover::compute_commitment: `a = g^z * inverse(h^e)`. -/
def interactive_prover.compute_commitment (proposition : ProveDlog)
    (challenge : Challenge) (second_message : SecondDlogProverMessage) :
    EcPoint :=
  dlog_group.mul
    (dlog_group.exponentiate dlog_group.generator second_message.z)
    (dlog_group.inverse (dlog_group.exponentiate proposition.h challenge))

/-- Modelled from the spec: `interactive_prover::simulate` is an unresolved
stub in the source (its body is `todo!()`); the spec reconstructs it as
"sampling `z` uniformly and deriving `a = g^z · h^(-e)`".  The uniformly
sampled `z` is an explicit argument here. -/
def interactive_prover.simulate (public_input : ProveDlog)
    (challenge : Challenge) (z : Scalar) :
    FirstDlogProverMessage × SecondDlogProverMessage :=
  (⟨dlog_group.mul
      (dlog_group.exponentiate dlog_group.generator z)
      (dlog_group.exponentiate public_input.h (-challenge))⟩,
   ⟨z⟩)

/-- Claim C1: completeness of the Sigma protocol.  For every secret `w`,
every randomness `r` produced by `first_message`, and every challenge `e`
(including `e = 0` and the maximum representable challenge),
`compute_commitment(public_image(w), e, second_message(w, r, e))` is
exactly the commitment `a` returned by `first_message`. -/
theorem dlog_protocol_completeness :
    ∀ (secret : DlogProverInput) (r : Scalar) (e : Challenge),
      (interactive_prover.compute_commitment secret.public_image e
          (interactive_prover.second_message secret r e)
        = (interactive_prover.first_message r).2.a)
      ∧ (interactive_prover.compute_commitment secret.public_image 0
          (interactive_prover.second_message secret r 0)
        = (interactive_prover.first_message r).2.a)
      ∧ (interactive_prover.compute_commitment secret.public_image (-1)
          (interactive_prover.second_message secret r (-1))
        = (interactive_prover.first_message r).2.a) := by
  intro secret r e
  refine ⟨?_, ?_, ?_⟩ <;>
    · simp only [interactive_prover.compute_commitment,
        interactive_prover.second_message, interactive_prover.first_message,
        DlogProverInput.public_image, dlog_group.mul, dlog_group.inverse,
        dlog_group.exponentiate, dlog_group.generator]
      ring

/-- Claim C8: for every public image `h`, every challenge `e` and every
sampled response `z`, `simulate` returns a pair `(a, z)` satisfying
`a = g^z · h^(-e)`, and `compute_commitment(h, e, z)` recomputes exactly
the returned commitment `a` — without using the secret. -/
theorem simulate_commitment_identity :
    ∀ (public_input : ProveDlog) (e : Challenge) (z : Scalar),
      ((interactive_prover.simulate public_input e z).1.a
        = dlog_group.mul
            (dlog_group.exponentiate dlog_group.generator z)
            (dlog_group.exponentiate public_input.h (-e)))
      ∧ ((interactive_prover.simulate public_input e z).2.z = z)
      ∧ (interactive_prover.compute_commitment public_input e
            (interactive_prover.simulate public_input e z).2
        = (interactive_prover.simulate public_input e z).1.a) := by
  intro public_input e z
  refine ⟨rfl, rfl, ?_⟩
  simp only [interactive_prover.compute_commitment,
    interactive_prover.simulate, dlog_group.mul, dlog_group.inverse,
    dlog_group.exponentiate, dlog_group.generator]
  ring

/-- Serialized proof generated by the prover (`prover_result.rs`): the
variant `Empty` or a non-empty byte vector.  Bytes are `Nat`s standing for
`u8` values. -/
inductive ProofBytes where
  | empty : ProofBytes
  | some (bytes : List Nat) : ProofBytes
deriving DecidableEq, Repr

/-- Into Vec for ProofBytes (`prover_result.rs`): `Empty` becomes the empty
vector, `Some(bytes)` its bytes. -/
def ProofBytes.intoVec : ProofBytes → List Nat
  | ProofBytes.empty => []
  | ProofBytes.some bytes => bytes

/-- From Vec for ProofBytes (`prover_result.rs`): an empty vector becomes
`Empty`, otherwise `Some(bytes)`. -/
def ProofBytes.fromVec (bytes : List Nat) : ProofBytes :=
  if bytes.isEmpty then ProofBytes.empty else ProofBytes.some bytes

/-- Modelled from the spec: the sigma byte writer's `put_u16` (declared in
ergotree-ir / sigma-ser, outside the sources shown) writes its `u16`
argument as a two-byte, 16-bit unsigned length field (spec "External
Interfaces": `length:uint16`; `serialize(Empty) == [0x00, 0x00]`).
Big-endian byte order is chosen; every theorem below reads it back with
the matching `get_u16`. -/
def put_u16 (v : Nat) : List Nat :=
  [v / 256 % 256, v % 256]

/-- Errors of binary (de)serialization (`SerializationError` / `io::Error`
in the source, collapsed to the one case the embedded code produces). -/
inductive SerializationError where
  | io : SerializationError
deriving DecidableEq, Repr

/-- Modelled from the spec: the sigma byte reader's `get_u16`, inverse of
`put_u16`; reading from a stream of fewer than two bytes is an error. -/
def get_u16 : List Nat → Except SerializationError (Nat × List Nat)
  | b0 :: b1 :: rest => Except.ok (b0 * 256 + b1, rest)
  | _ => Except.error SerializationError.io

/-- Modelled from the spec: `read_exact(n)` of the byte reader returns the
next `n` bytes, or an error when fewer than `n` remain ("Truncated-stream
error — binary length prefix declares more bytes than are available"). -/
def read_exact (n : Nat) (input : List Nat) :
    Except SerializationError (List Nat × List Nat) :=
  if n ≤ input.length then Except.ok (input.take n, input.drop n)
  else Except.error SerializationError.io

/-- ProofBytes::sigma_serialize (`prover_result.rs`): `Empty` writes the
u16 length `0`; `Some(bytes)` writes `bytes.len() as u16` — the cast is the
explicit `% 65536` — followed by all the bytes. -/
def ProofBytes.sigma_serialize : ProofBytes → List Nat
  | ProofBytes.empty => put_u16 0
  | ProofBytes.some bytes => put_u16 (bytes.length % 65536) ++ bytes

/-- ProofBytes::sigma_parse (`prover_result.rs`): read the u16 length; zero
yields `Empty`, otherwise read exactly that many bytes into `Some`.  The
unconsumed remainder of the stream is returned alongside the result. -/
def ProofBytes.sigma_parse (input : List Nat) :
    Except SerializationError (ProofBytes × List Nat) :=
  match get_u16 input with
  | Except.error e => Except.error e
  | Except.ok (proof_len, rest) =>
    if proof_len = 0 then Except.ok (ProofBytes.empty, rest)
    else
      match read_exact proof_len rest with
      | Except.error e => Except.error e
      | Except.ok (bytes, rest2) => Except.ok (ProofBytes.some bytes, rest2)

/-- Reading back a written u16 returns the value written, for values that
fit in 16 bits. -/
theorem get_u16_put_u16 (v : Nat) (rest : List Nat) (hv : v < 65536) :
    get_u16 (put_u16 v ++ rest) = Except.ok (v, rest) := by
  simp only [put_u16, List.cons_append, List.nil_append, get_u16]
  congr 1
  congr 1
  omega

/-- Claim C9: converting `ProofBytes::from(bs)` back into a byte vector
yields exactly `bs`; `Empty` maps to the empty vector. -/
theorem proofBytes_intoVec_fromVec :
    ∀ bs : List Nat, ProofBytes.intoVec (ProofBytes.fromVec bs) = bs := by
  intro bs
  cases bs with
  | nil => rfl
  | cons b tl => rfl

/-- Claim C5: constructing a `ProofBytes` from an empty byte vector yields
`Empty`, and no byte vector whatsoever constructs `Some` of the empty
vector through the conversion. -/
theorem proofBytes_fromVec_normalizes :
    (ProofBytes.fromVec [] = ProofBytes.empty)
    ∧ ∀ bs : List Nat,
        decide (ProofBytes.fromVec bs = ProofBytes.some []) = false := by
  refine ⟨rfl, ?_⟩
  intro bs
  cases bs with
  | nil => rfl
  | cons b tl => simp [ProofBytes.fromVec]

/-- Claim C2 counterexample: the claim quantifies over `Some(bytes)` for
bytes of any length from 0 up, but `Some([])` serializes to the same two
bytes as `Empty` and parses back to `Empty`, not to `Some([])`. -/
theorem proofBytes_roundTrip_fails_on_some_nil :
    (ProofBytes.sigma_serialize (ProofBytes.some []) = [0, 0])
    ∧ (ProofBytes.sigma_parse
         (ProofBytes.sigma_serialize (ProofBytes.some []))
        = Except.ok (ProofBytes.empty, []))
    ∧ (decide (ProofBytes.empty = ProofBytes.some []) = false) := by
  exact ⟨rfl, rfl, rfl⟩

/-- Claim C2 (amended): `serialize(Empty)` is exactly `[0x00, 0x00]`, the
round trip holds for `Empty`, and it holds for `Some(bytes)` for every
length from 1 through 65535 (`Some([])` itself parses back as `Empty`). -/
theorem proofBytes_binary_round_trip :
    (ProofBytes.sigma_serialize ProofBytes.empty = [0, 0])
    ∧ (ProofBytes.sigma_parse (ProofBytes.sigma_serialize ProofBytes.empty)
        = Except.ok (ProofBytes.empty, []))
    ∧ ∀ bs : List Nat, 1 ≤ bs.length → bs.length ≤ 65535 →
        ProofBytes.sigma_parse
            (ProofBytes.sigma_serialize (ProofBytes.some bs))
          = Except.ok (ProofBytes.some bs, []) := by
  refine ⟨rfl, rfl, ?_⟩
  intro bs h1 h2
  have hlt : bs.length % 65536 = bs.length := Nat.mod_eq_of_lt (by omega)
  have hfit : bs.length < 65536 := by omega
  have hne : ¬ bs.length = 0 := by omega
  simp only [ProofBytes.sigma_serialize, hlt]
  simp only [ProofBytes.sigma_parse, get_u16_put_u16 _ _ hfit]
  simp only [hne, if_false, read_exact, le_refl, if_true,
    List.take_length, List.drop_length]

/-- Claim C3: evaluation at the failing input.  `Some` of 65536 bytes is
serialized without any error: the length prefix is written as
`65536 % 65536 = 0` (the `as u16` cast truncates) while the whole payload
still follows, so parsing the result yields `Empty` with the entire
payload left unconsumed instead of an error. -/
theorem proofBytes_serialize_truncates_oversized :
    (ProofBytes.sigma_serialize (ProofBytes.some (List.replicate 65536 7))
      = 0 :: 0 :: List.replicate 65536 7)
    ∧ (ProofBytes.sigma_parse
         (ProofBytes.sigma_serialize (ProofBytes.some (List.replicate 65536 7)))
        = Except.ok (ProofBytes.empty, List.replicate 65536 7)) := by
  have hlen : (List.replicate 65536 7).length % 65536 = 0 := by
    rw [List.length_replicate]
  have hser : ProofBytes.sigma_serialize (ProofBytes.some (List.replicate 65536 7))
      = 0 :: 0 :: List.replicate 65536 7 := by
    simp only [ProofBytes.sigma_serialize, hlen, put_u16]
    rfl
  refine ⟨hser, ?_⟩
  rw [hser]
  rfl

/-- Claim C7: the length contract of `sigma_parse`.  After the 16-bit
length prefix, length zero yields `Empty` and consumes nothing further; a
nonzero length `n` with at least `n` bytes remaining yields `Some` of
exactly those `n` bytes; a nonzero length with fewer than `n` bytes
remaining is a parse error — never `Empty`, never a shortened `Some`. -/
theorem proofBytes_parse_length_contract :
    ∀ (n : Nat) (rest : List Nat), n < 65536 →
      ((n = 0 →
          ProofBytes.sigma_parse (put_u16 n ++ rest)
            = Except.ok (ProofBytes.empty, rest))
       ∧ (1 ≤ n → n ≤ rest.length →
          ProofBytes.sigma_parse (put_u16 n ++ rest)
            = Except.ok (ProofBytes.some (rest.take n), rest.drop n))
       ∧ (1 ≤ n → rest.length < n →
          ProofBytes.sigma_parse (put_u16 n ++ rest)
            = Except.error SerializationError.io)) := by
  intro n rest hn
  refine ⟨?_, ?_, ?_⟩
  · intro h0
    subst h0
    simp [ProofBytes.sigma_parse, get_u16_put_u16 _ _ hn]
  · intro h1 hle
    have hne : ¬ n = 0 := by omega
    simp [ProofBytes.sigma_parse, get_u16_put_u16 _ _ hn, hne,
      read_exact, hle]
  · intro h1 hlt
    have hne : ¬ n = 0 := by omega
    have hgt : ¬ n ≤ rest.length := by omega
    simp [ProofBytes.sigma_parse, get_u16_put_u16 _ _ hn, hne,
      read_exact, hgt]

/-- Claim C2 witness: the amended round trip at the concrete proof
`[1, 2, 3]`. -/
theorem proofBytes_binary_round_trip_witness :
    ProofBytes.sigma_parse
        (ProofBytes.sigma_serialize (ProofBytes.some [1, 2, 3]))
      = Except.ok (ProofBytes.some [1, 2, 3], []) :=
  proofBytes_binary_round_trip.2.2 [1, 2, 3] (by decide) (by decide)

/-- Claim C7 witness: a declared length of 3 with only 2 bytes remaining
is a parse error. -/
theorem proofBytes_parse_length_contract_witness :
    ProofBytes.sigma_parse (put_u16 3 ++ [4, 5])
      = Except.error SerializationError.io :=
  (proofBytes_parse_length_contract 3 [4, 5] (by decide)).2.2 (by decide)
    (by decide)

/-- Errors of the base16 crate (`base16::DecodeError`), as used by
`TryFrom<String> for ProofBytes` and `FromStr for ProverResult`: an
invalid character at a position, or an odd input length. -/
inductive DecodeError where
  | invalidByte (index : Nat) (byte : Nat)
  | invalidLength (length : Nat)
deriving DecidableEq, Repr

/-- Modelled from the behavior of the external base16 crate: the value of
one hexadecimal digit; both lowercase and uppercase digits decode. -/
def hexVal (c : Char) : Option Nat :=
  if '0' ≤ c ∧ c ≤ '9' then Option.some (c.toNat - 48)
  else if 'a' ≤ c ∧ c ≤ 'f' then Option.some (c.toNat - 87)
  else if 'A' ≤ c ∧ c ≤ 'F' then Option.some (c.toNat - 55)
  else Option.none

/-- Modelled from the behavior of the external base16 crate: the lowercase
hexadecimal digit of a value below 16 (`encode_lower` emits these). -/
def hexCharLower (n : Nat) : Char :=
  if n < 10 then Char.ofNat (48 + n) else Char.ofNat (87 + n)

/-- base16::encode_lower: each byte becomes its two lowercase hex digits. -/
def encode_lower : List Nat → List Char
  | [] => []
  | b :: bs => hexCharLower (b / 16) :: hexCharLower (b % 16) :: encode_lower bs

/-- Decoding loop of base16::decode over an even-length input: two hex
digits per output byte, reporting the index of the first bad character. -/
def base16_decode_aux : Nat → List Char → Except DecodeError (List Nat)
  | _, [] => Except.ok []
  | i, [_] => Except.error (DecodeError.invalidLength (i + 1))
  | i, c1 :: c2 :: rest =>
    match hexVal c1 with
    | Option.none => Except.error (DecodeError.invalidByte i c1.toNat)
    | Option.some hi =>
      match hexVal c2 with
      | Option.none => Except.error (DecodeError.invalidByte (i + 1) c2.toNat)
      | Option.some lo =>
        match base16_decode_aux (i + 2) rest with
        | Except.error e => Except.error e
        | Except.ok bytes => Except.ok ((16 * hi + lo) :: bytes)

/-- Modelled from the behavior of the external base16 crate:
base16::decode rejects odd-length input and otherwise decodes two hex
digits per byte, failing on the first non-hex character. -/
def base16_decode (cs : List Char) : Except DecodeError (List Nat) :=
  if cs.length % 2 = 1 then Except.error (DecodeError.invalidLength cs.length)
  else base16_decode_aux 0 cs

/-- Into String for ProofBytes (`prover_result.rs`): `Empty` becomes the
empty string, `Some(bytes)` its lowercase-hex encoding. -/
def ProofBytes.intoString : ProofBytes → String
  | ProofBytes.empty => ""
  | ProofBytes.some bytes => String.mk (encode_lower bytes)

/-- TryFrom String for ProofBytes (`prover_result.rs`): hex-decode, then
normalize through the `From<Vec<u8>>` conversion. -/
def ProofBytes.tryFromString (s : String) : Except DecodeError ProofBytes :=
  match base16_decode s.toList with
  | Except.error e => Except.error e
  | Except.ok bytes => Except.ok (ProofBytes.fromVec bytes)

/-- The payload of a `ProofBytes` holds genuine `u8` values. -/
def ProofBytes.validBytes : ProofBytes → Bool
  | ProofBytes.empty => true
  | ProofBytes.some bytes => bytes.all (fun b => decide (b < 256))

/-- Hex digits below 16 decode back to themselves. -/
theorem hexVal_hexCharLower : ∀ n : Nat, n < 16 →
    hexVal (hexCharLower n) = Option.some n := by decide

/-- Lowercase hex encoding has twice the length of its input. -/
theorem encode_lower_length :
    ∀ bs : List Nat, (encode_lower bs).length = 2 * bs.length := by
  intro bs
  induction bs with
  | nil => rfl
  | cons b tl ih => simp only [encode_lower, List.length_cons, ih]; omega

/-- The decoding loop inverts `encode_lower` on byte lists, at any index. -/
theorem base16_decode_aux_encode_lower :
    ∀ bs : List Nat, (∀ b ∈ bs, b < 256) → ∀ i : Nat,
      base16_decode_aux i (encode_lower bs) = Except.ok bs := by
  intro bs
  induction bs with
  | nil => intro _ i; rfl
  | cons b tl ih =>
    intro hbs i
    have hb : b < 256 := hbs b (by simp)
    have htl : ∀ x ∈ tl, x < 256 := fun x hx => hbs x (by simp [hx])
    have hhi : hexVal (hexCharLower (b / 16)) = Option.some (b / 16) :=
      hexVal_hexCharLower _ (by omega)
    have hlo : hexVal (hexCharLower (b % 16)) = Option.some (b % 16) :=
      hexVal_hexCharLower _ (by omega)
    simp only [encode_lower, base16_decode_aux, hhi, hlo, ih htl,
      Nat.div_add_mod]

/-- base16::decode inverts base16::encode_lower on byte lists. -/
theorem base16_decode_encode_lower (bs : List Nat)
    (hbs : ∀ b ∈ bs, b < 256) :
    base16_decode (encode_lower bs) = Except.ok bs := by
  have hlen : (encode_lower bs).length % 2 = 0 := by
    rw [encode_lower_length]; omega
  simp only [base16_decode, hlen]
  simp only [Nat.zero_ne_one, if_false, base16_decode_aux_encode_lower bs hbs 0]

/-- Claim C6 counterexample: the claim's round trip quantifies over every
`ProofBytes` value, but `Some([])` prints as the empty string, which
parses back (after decode and normalization) to `Empty`, not to
`Some([])`. -/
theorem proofBytes_text_roundTrip_fails_on_some_nil :
    (ProofBytes.intoString (ProofBytes.some []) = "")
    ∧ (ProofBytes.tryFromString (ProofBytes.intoString (ProofBytes.some []))
        = Except.ok ProofBytes.empty)
    ∧ (decide (ProofBytes.empty = ProofBytes.some []) = false) := by
  exact ⟨rfl, rfl, rfl⟩

/-- Claim C6 (amended): `Empty` prints as `""` and `Some([1,2,3])` as
`"010203"`; parsing `""` yields `Ok(Empty)` and parsing `"zz"` fails with
a decode error (never `Empty`); and for every `ProofBytes` holding `u8`
bytes other than `Some([])` itself, parsing the printed text yields the
value back (`Some([])` prints as `""` and parses to `Empty`). -/
theorem proofBytes_text_round_trip :
    (ProofBytes.intoString ProofBytes.empty = "")
    ∧ (ProofBytes.intoString (ProofBytes.some [1, 2, 3]) = "010203")
    ∧ (ProofBytes.tryFromString "" = Except.ok ProofBytes.empty)
    ∧ (ProofBytes.tryFromString "zz"
        = Except.error (DecodeError.invalidByte 0 122))
    ∧ ∀ x : ProofBytes, ProofBytes.validBytes x = true →
        x ≠ ProofBytes.some [] →
        ProofBytes.tryFromString (ProofBytes.intoString x) = Except.ok x := by
  refine ⟨rfl, rfl, rfl, rfl, ?_⟩
  intro x hvalid hne
  cases x with
  | empty => rfl
  | some bytes =>
    have hbs : ∀ b ∈ bytes, b < 256 := by
      intro b hb
      have := List.all_eq_true.mp hvalid b hb
      exact of_decide_eq_true this
    have hnil : ¬ bytes.isEmpty = true := by
      cases bytes with
      | nil => exact absurd rfl hne
      | cons c tl => simp [List.isEmpty]
    simp only [ProofBytes.intoString, ProofBytes.tryFromString]
    have hlist : (String.mk (encode_lower bytes)).toList = encode_lower bytes := rfl
    rw [hlist, base16_decode_encode_lower bytes hbs]
    simp [ProofBytes.fromVec, hnil]

/-- Claim C6 witness: the amended round trip at the concrete value
`Some([0xab])`, whose text is `"ab"`. -/
theorem proofBytes_text_round_trip_witness :
    ProofBytes.tryFromString (ProofBytes.intoString (ProofBytes.some [171]))
      = Except.ok (ProofBytes.some [171]) :=
  proofBytes_text_round_trip.2.2.2.2 (ProofBytes.some [171]) (by decide)
    (by decide)

/-- A JSON value, as the serde data model dispatches on it: string, number,
boolean, array, object (ordered field list) or null. -/
inductive Json where
  | str (s : String)
  | num (n : Int)
  | bool (b : Bool)
  | arr (items : List Json)
  | obj (fields : List (String × Json))
  | null

/-- Whether a JSON value is a bare string. -/
def Json.isStr : Json → Bool
  | Json.str _ => true
  | _ => false

/-- Modelled from the spec: `ContextExtension` is an opaque,
externally-defined key-value payload with an empty constructor; its JSON
encoding is owned by the extension itself (`ContextExtensionSerde`,
outside the sources shown), so it is carried here as the raw JSON object
contents this core round-trips. -/
structure ContextExtension where
  fields : List (String × Json)

/-- ContextExtension::empty, the canonical empty extension. -/
def ContextExtension.empty : ContextExtension := ⟨[]⟩

/-- Proof of correctness of tx spending (`prover_result.rs`): the proof
together with the user-defined context extension. -/
structure ProverResult where
  proof : ProofBytes
  extension : ContextExtension

/-- Errors of `ProverResult` JSON deserialization: an underlying hex
decode failure (surfaced by `visit_str` with a descriptive message), a
value of unexpected shape, or a missing object field. -/
inductive DeError where
  | decode (e : DecodeError)
  | invalidType
  | missingField (name : String)

/-- Serialize for ProverResult (`json.rs`): always the object shape with
the two fields `proofBytes` (the textual proof form) and `extension`. -/
def ProverResult.serialize (pr : ProverResult) : Json :=
  Json.obj
    [("proofBytes", Json.str (ProofBytes.intoString pr.proof)),
     ("extension", Json.obj pr.extension.fields)]

/-- FromStr for ProverResult (`json.rs`): hex-decode the bare string into
the proof; the extension is `ContextExtension::empty()`. -/
def ProverResult.from_str (s : String) : Except DecodeError ProverResult :=
  match base16_decode s.toList with
  | Except.error e => Except.error e
  | Except.ok proof_bytes =>
    Except.ok ⟨ProofBytes.fromVec proof_bytes, ContextExtension.empty⟩

/-- The first value of an object field with the given name, as serde's
map access feeds fields to a derived struct deserializer. -/
def lookupField (fields : List (String × Json)) (name : String) :
    Option Json :=
  (fields.find? (fun f => f.1 == name)).map (fun f => f.2)

/-- Modelled from the spec: the derived field-by-field deserializer of
`ProverResult` (the struct's derive is outside the sources shown), over
the canonical shape with fields `proofBytes` (a hex string) and
`extension` (the extension's own JSON object). -/
def ProverResult.deserializeFields (fields : List (String × Json)) :
    Except DeError ProverResult :=
  match lookupField fields "proofBytes" with
  | Option.none => Except.error (DeError.missingField "proofBytes")
  | Option.some (Json.str s) =>
    match base16_decode s.toList with
    | Except.error e => Except.error (DeError.decode e)
    | Except.ok proof_bytes =>
      match lookupField fields "extension" with
      | Option.none => Except.error (DeError.missingField "extension")
      | Option.some (Json.obj ext) =>
        Except.ok ⟨ProofBytes.fromVec proof_bytes, ⟨ext⟩⟩
      | Option.some _ => Except.error DeError.invalidType
  | Option.some _ => Except.error DeError.invalidType

/-- proof_as_string_or_struct (`json.rs`): the deserializer inspects the
incoming shape; a string goes through `FromStr` (decode failures are
surfaced as errors), a map goes through the derived field-by-field
deserializer, and the visitor accepts nothing else. -/
def ProverResult.deserialize : Json → Except DeError ProverResult
  | Json.str s =>
    match ProverResult.from_str s with
    | Except.error e => Except.error (DeError.decode e)
    | Except.ok pr => Except.ok pr
  | Json.obj fields => ProverResult.deserializeFields fields
  | _ => Except.error DeError.invalidType

/-- Claim C4: JSON dual-shape acceptance for `ProverResult`.  A bare
string hex-decodes into the proof with the canonical empty extension; an
object of the canonical shape is deserialized field-by-field; a number,
an array and null are parse errors. -/
theorem proverResult_string_or_struct :
    (∀ (s : String) (bs : List Nat),
        base16_decode s.toList = Except.ok bs →
        ProverResult.deserialize (Json.str s)
          = Except.ok ⟨ProofBytes.fromVec bs, ContextExtension.empty⟩)
    ∧ (∀ (s : String) (ext : List (String × Json)) (bs : List Nat),
        base16_decode s.toList = Except.ok bs →
        ProverResult.deserialize
            (Json.obj [("proofBytes", Json.str s),
                       ("extension", Json.obj ext)])
          = Except.ok ⟨ProofBytes.fromVec bs, ⟨ext⟩⟩)
    ∧ (∀ n : Int, (ProverResult.deserialize (Json.num n)).isOk = false)
    ∧ (∀ items : List Json,
        (ProverResult.deserialize (Json.arr items)).isOk = false)
    ∧ ((ProverResult.deserialize Json.null).isOk = false) := by
  refine ⟨?_, ?_, ?_, ?_, rfl⟩
  · intro s bs hdec
    simp only [ProverResult.deserialize, ProverResult.from_str, hdec]
  · intro s ext bs hdec
    have hx : ("proofBytes" == "extension") = false := by decide
    simp only [ProverResult.deserialize, ProverResult.deserializeFields,
      lookupField, List.find?, beq_self_eq_true, hx, Option.map, hdec]
  · intro n; rfl
  · intro items; rfl

/-- Claim C4 witness: the bare string `"01ff"` decodes to the two-byte
proof with the empty extension. -/
theorem proverResult_string_or_struct_witness :
    ProverResult.deserialize (Json.str "01ff")
      = Except.ok ⟨ProofBytes.fromVec [1, 255], ContextExtension.empty⟩ :=
  proverResult_string_or_struct.1 "01ff" [1, 255] (by rfl)

/-- Claim C10: JSON serialization of `ProverResult` always emits the full
object shape with the two fields `proofBytes` and `extension` — never the
legacy bare-string shorthand — including for the value with an `Empty`
proof and an empty extension. -/
theorem proverResult_serialize_always_object :
    ∀ pr : ProverResult,
      (ProverResult.serialize pr
        = Json.obj
            [("proofBytes", Json.str (ProofBytes.intoString pr.proof)),
             ("extension", Json.obj pr.extension.fields)])
      ∧ ((ProverResult.serialize pr).isStr = false)
      ∧ (ProverResult.serialize ⟨ProofBytes.empty, ContextExtension.empty⟩
          = Json.obj [("proofBytes", Json.str ""),
                      ("extension", Json.obj [])]) := by
  intro pr
  exact ⟨rfl, rfl, rfl⟩
